import Mathlib

/-!
Shallow embedding of the STM32 flash driver (`src/flash.rs`), default
(L4-family, non-`l5`) configuration: the `else` arms of the `cfg_if!`
blocks.  Registers are modelled as record fields; every software register
write is logged as an event in `trace`; memory programming is logged
(newest first) in `mem`.  The hardware's asynchronous behaviour is
modelled deterministically:

* the busy-wait loop `while sr.bsy {}` terminates exactly when the
  hardware clears `BSY`, so it is embedded as the state transformer
  `busyWait` that clears the `bsy` flag (a hardware transition, hence no
  trace event);
* whether the two-word key sequence makes the hardware clear the `LOCK`
  bit is an environment parameter `keyAccept` of the state, so both the
  successful and the failed key sequence are expressible.

The dual-domain (`l5`) `check_illegal` is embedded separately at the end,
over the per-domain status-flag records it reads.
-/

namespace Stm32Flash

def FLASH_KEY1 : Nat := 0x45670123

def FLASH_KEY2 : Nat := 0xCDEF89AB

inductive Error
  | Busy
  | Illegal
  | EccError
  | PageOutOfRange
  | Failure
deriving DecidableEq

inductive BanksToErase
  | Bank1
  | Bank2
  | Both
deriving DecidableEq

/-- Status register FLASH_SR: the fields the driver reads or writes. -/
structure SR where
  bsy : Bool
  eop : Bool
  pgaerr : Bool
  progerr : Bool
  wrperr : Bool
deriving DecidableEq

/-- Control register FLASH_CR: the fields the driver reads or writes.
`pnb` is the u8 page-number field; `bker` the bank-select bit. -/
structure CR where
  lock : Bool
  per : Bool
  bker : Bool
  pnb : Nat
  start : Bool
  pg : Bool
  mer1 : Bool
  mer2 : Bool
deriving DecidableEq

/-- A software register-write event (one `.write`/`.modify` call, or one
32-bit volatile memory write). -/
inductive Ev
  | wKeyr (v : Nat)
  | wCr (c : CR)
  | wSr (s : SR)
  | wMem (addr : Nat) (v : Nat)
deriving DecidableEq

structure FlashState where
  cr : CR
  sr : SR
  /-- Log of 32-bit programmed words, newest first. -/
  mem : List (Nat × Nat)
  /-- Environment: hardware clears the lock bit after the key sequence. -/
  keyAccept : Bool
  trace : List Ev
deriving DecidableEq

def writeCr (c : CR) (s : FlashState) : FlashState :=
  { s with cr := c, trace := s.trace ++ [Ev.wCr c] }

def writeKeyr (v : Nat) (s : FlashState) : FlashState :=
  { s with trace := s.trace ++ [Ev.wKeyr v] }

def writeMem (a v : Nat) (s : FlashState) : FlashState :=
  { s with mem := (a, v) :: s.mem, trace := s.trace ++ [Ev.wMem a v] }

/-- Reading a 32-bit word of flash: last value programmed at this
address, erased flash (all ones) otherwise. -/
def readWord (m : List (Nat × Nat)) (a : Nat) : Nat :=
  (m.lookup a).getD 0xFFFFFFFF

/-- Hardware transition: the busy-wait loop exits once BSY is cleared. -/
def busyWait (s : FlashState) : FlashState :=
  { s with sr := { s.sr with bsy := false } }

/-- The write of the EOP bit (write-1-to-clear) in `sr.modify`. -/
def clearEop (s : FlashState) : FlashState :=
  { s with sr := { s.sr with eop := false },
           trace := s.trace ++ [Ev.wSr { s.sr with eop := false }] }

/-- `Flash::unlock` (flash.rs:151-162): writes KEY1 then KEY2 to `keyr`,
then returns `Ok` iff the lock bit reads clear, `Failure` otherwise.
Hardware clears `cr.lock` after the key sequence iff `keyAccept`. -/
def unlock (s : FlashState) : Except Error Unit × FlashState :=
  let s1 := writeKeyr FLASH_KEY1 s
  let s2 := writeKeyr FLASH_KEY2 s1
  let s3 := if s2.keyAccept then { s2 with cr := { s2.cr with lock := false } } else s2
  if s3.cr.lock then (Except.error Error.Failure, s3) else (Except.ok (), s3)

/-- `Flash::lock` (flash.rs:164-167): sets the lock bit. -/
def lock (s : FlashState) : FlashState :=
  writeCr { s.cr with lock := true } s

/-- `check_illegal` (flash.rs:58-80, the default `else` arm): `Illegal`
iff PGAERR, PROGERR or WRPERR is set; reads only, writes nothing. -/
def check_illegal (s : FlashState) : Except Error Unit :=
  if s.sr.pgaerr || s.sr.progerr || s.sr.wrperr then Except.error Error.Illegal
  else Except.ok ()

/-- `page_to_address` (flash.rs:733-736). -/
def page_to_address (page : Nat) : Nat :=
  0x08000000 + page * 2048

/-- `Flash::erase_page` (flash.rs:184-288, the default `else` arms).
The `_ =>` arm of the page match returns `PageOutOfRange` without a
`lock()` call, exactly as flash.rs:250-252 does. -/
def erase_page (page : Nat) (s : FlashState) : Except Error Unit × FlashState :=
  match unlock s with
  | (Except.error e, s1) => (Except.error e, s1)
  | (Except.ok _, s1) =>
    if s1.sr.bsy then (Except.error Error.Busy, lock s1)
    else match check_illegal s1 with
    | Except.error _ => (Except.error Error.Illegal, lock s1)
    | Except.ok _ =>
      if page ≤ 255 then
        let s2 := writeCr { s1.cr with bker := false, pnb := page % 256, per := true } s1
        let s3 := writeCr { s2.cr with start := true } s2
        let s4 := busyWait s3
        let s5 := writeCr { s4.cr with per := false } s4
        (Except.ok (), lock s5)
      else if page ≤ 511 then
        let s2 := writeCr { s1.cr with bker := true, pnb := (page - 256) % 256, per := true } s1
        let s3 := writeCr { s2.cr with start := true } s2
        let s4 := busyWait s3
        let s5 := writeCr { s4.cr with per := false } s4
        (Except.ok (), lock s5)
      else
        (Except.error Error.PageOutOfRange, s1)

/-- `Flash::erase_bank` (flash.rs:405-469, the default `else` arms). -/
def erase_bank (banks : BanksToErase) (s : FlashState) : Except Error Unit × FlashState :=
  match unlock s with
  | (Except.error e, s1) => (Except.error e, s1)
  | (Except.ok _, s1) =>
    if s1.sr.bsy then (Except.error Error.Busy, lock s1)
    else match check_illegal s1 with
    | Except.error _ => (Except.error Error.Illegal, lock s1)
    | Except.ok _ =>
      let s2 :=
        match banks with
        | BanksToErase.Bank1 => writeCr { s1.cr with mer1 := false } s1
        | BanksToErase.Bank2 => writeCr { s1.cr with mer2 := false } s1
        | BanksToErase.Both =>
          let sa := writeCr { s1.cr with mer1 := false } s1
          writeCr { sa.cr with mer2 := false } sa
      let s3 := writeCr { s2.cr with start := true } s2
      let s4 := busyWait s3
      (Except.ok (), lock s4)

/-- The per-double-word programming loop of `Flash::write_page`
(flash.rs:582-600): low 32 bits at the current address, high 32 bits at
address + 4, advance by 8, busy-wait, clear EOP if set. -/
def progData (addr : Nat) (data : List Nat) (s : FlashState) : FlashState :=
  match data with
  | [] => s
  | d :: rest =>
    let sa := writeMem addr (d % 2 ^ 32) s
    let sb := writeMem (addr + 4) (d / 2 ^ 32 % 2 ^ 32) sa
    let sc := busyWait sb
    let sd := if sc.sr.eop then clearEop sc else sc
    progData (addr + 8) rest sd

/-- `Flash::write_page` (flash.rs:552-609).  Note there is no page-range
check anywhere in the source function. -/
def write_page (page : Nat) (data : List Nat) (s : FlashState) :
    Except Error Unit × FlashState :=
  match unlock s with
  | (Except.error e, s1) => (Except.error e, s1)
  | (Except.ok _, s1) =>
    if s1.sr.bsy then (Except.error Error.Busy, lock s1)
    else match check_illegal s1 with
    | Except.error _ => (Except.error Error.Illegal, lock s1)
    | Except.ok _ =>
      let s2 := writeCr { s1.cr with pg := true } s1
      let s3 := progData (page_to_address page) data s2
      let s4 := writeCr { s3.cr with pg := false } s3
      (Except.ok (), lock s4)

/-- `Flash::read` (flash.rs:717-720): a direct 64-bit read at
`page_to_address(page)` offset by `offset` double words; on the
little-endian target the 64-bit cell is the low word at the address plus
the high word at address + 4. -/
def read (page : Nat) (offset : Int) (s : FlashState) : Nat :=
  let a := ((page_to_address page : Int) + 8 * offset).toNat
  readWord s.mem a + 2 ^ 32 * readWord s.mem (a + 4)

/-- One security domain's error flags of the `l5` status registers
(FLASH_NSSR / FLASH_SECSR). -/
structure DomainSR where
  pgaerr : Bool
  pgserr : Bool
  progerr : Bool
  wrperr : Bool
deriving DecidableEq

inductive Security
  | NonSecure
  | Secure
deriving DecidableEq

structure L5Regs where
  nssr : DomainSR
  secsr : DomainSR
deriving DecidableEq

/-- `check_illegal` for the `l5` feature (flash.rs:82-110).  The Secure
arm reproduces flash.rs:99-102 literally: it tests `secpgaerr` twice and
never tests `secpgserr`. -/
def check_illegal_l5 (f : L5Regs) (security : Security) : Except Error Unit :=
  match security with
  | Security.NonSecure =>
    if f.nssr.pgaerr || f.nssr.pgserr || f.nssr.progerr || f.nssr.wrperr then
      Except.error Error.Illegal
    else Except.ok ()
  | Security.Secure =>
    if f.secsr.pgaerr || f.secsr.pgaerr || f.secsr.progerr || f.secsr.wrperr then
      Except.error Error.Illegal
    else Except.ok ()

/-- An idle, error-free controller: locked, not busy, no error flags, a
key sequence the hardware accepts, erased memory, empty event trace. -/
def initSt : FlashState :=
  { cr := { lock := true, per := false, bker := false, pnb := 0,
            start := false, pg := false, mer1 := false, mer2 := false },
    sr := { bsy := false, eop := false, pgaerr := false, progerr := false, wrperr := false },
    mem := [], keyAccept := true, trace := [] }

/-- After an accepted key sequence, `unlock` returns `Ok` with the lock
bit cleared and exactly the two key writes appended to the trace. -/
lemma unlock_accept (s : FlashState) (hk : s.keyAccept = true) :
    unlock s = (Except.ok (),
      { s with cr := { s.cr with lock := false },
               trace := s.trace ++ [Ev.wKeyr FLASH_KEY1, Ev.wKeyr FLASH_KEY2] }) := by
  simp [unlock, writeKeyr, hk]

/-- C1: the claim says every mutating operation re-locks on every return
path, the `PageOutOfRange` branch included.  The code does not: on an
idle, error-free controller, `erase_page 512` returns `PageOutOfRange`
with the lock bit still clear, and the trace shows no control-register
(hence no lock) write at all after the unlock key sequence. -/
theorem erase_page_out_of_range_leaves_unlocked :
    (erase_page 512 initSt).1 = Except.error Error.PageOutOfRange ∧
    (erase_page 512 initSt).2.cr.lock = false ∧
    (erase_page 512 initSt).2.trace = [Ev.wKeyr FLASH_KEY1, Ev.wKeyr FLASH_KEY2] :=
  ⟨rfl, rfl, rfl⟩

/-- C4: the claim says the Secure branch of the `l5` `check_illegal`
tests the same four error flags as the NonSecure branch.  It does not:
with only the programming-sequence error flag set, the Secure branch
returns `Ok` (flash.rs:100 re-tests `secpgaerr` instead of
`secpgserr`) while the NonSecure branch returns `Illegal`. -/
theorem check_illegal_l5_secure_misses_pgserr :
    check_illegal_l5
        { nssr := { pgaerr := false, pgserr := false, progerr := false, wrperr := false },
          secsr := { pgaerr := false, pgserr := true, progerr := false, wrperr := false } }
        Security.Secure = Except.ok () ∧
    check_illegal_l5
        { nssr := { pgaerr := false, pgserr := true, progerr := false, wrperr := false },
          secsr := { pgaerr := false, pgserr := false, progerr := false, wrperr := false } }
        Security.NonSecure = Except.error Error.Illegal :=
  ⟨rfl, rfl⟩

/-- C8: `page_to_address page = 0x0800_0000 + page * 2048`; consecutive
pages are 2048 bytes apart, addresses are monotone and 2048-aligned. -/
theorem page_to_address_spec (p : Nat) :
    page_to_address p = 0x08000000 + p * 2048 ∧
    page_to_address (p + 1) - page_to_address p = 2048 ∧
    page_to_address p < page_to_address (p + 1) ∧
    page_to_address p % 2048 = 0 := by
  refine ⟨rfl, ?_, ?_, ?_⟩ <;> simp only [page_to_address] <;> omega

/-- C5: `unlock` appends exactly the two key writes KEY1 then KEY2 to
the trace and returns `Ok` iff the lock bit then reads clear, `Failure`
iff it reads set; `lock` sets the lock bit unconditionally, so a
successful unlock followed by `lock` leaves the lock bit set. -/
theorem unlock_lock_spec (s : FlashState) :
    (unlock s).2.trace = s.trace ++ [Ev.wKeyr FLASH_KEY1, Ev.wKeyr FLASH_KEY2] ∧
    ((unlock s).1 = Except.ok () ↔ (unlock s).2.cr.lock = false) ∧
    ((unlock s).1 = Except.error Error.Failure ↔ (unlock s).2.cr.lock = true) ∧
    (lock (unlock s).2).cr.lock = true ∧
    (∀ t : FlashState, (lock t).cr.lock = true) := by
  cases hk : s.keyAccept <;> cases hl : s.cr.lock <;>
    simp [unlock, writeKeyr, lock, writeCr, hk, hl]

/-- An idle controller whose busy flag is set at entry. -/
def initBusy : FlashState :=
  { initSt with sr := { initSt.sr with bsy := true } }

/-- C6: with the key sequence accepted and the busy flag set at entry,
each mutating operation returns `Busy`, writes no command-register
configuration (the only control-register write is the final lock write),
and ends with the lock bit set and every other control field unchanged. -/
theorem busy_at_entry (s : FlashState) (p : Nat) (data : List Nat) (banks : BanksToErase)
    (hk : s.keyAccept = true) (hb : s.sr.bsy = true) :
    (erase_page p s).1 = Except.error Error.Busy ∧
    (erase_page p s).2.cr = { s.cr with lock := true } ∧
    (erase_page p s).2.trace
      = s.trace ++ [Ev.wKeyr FLASH_KEY1, Ev.wKeyr FLASH_KEY2,
                    Ev.wCr { s.cr with lock := true }] ∧
    (erase_bank banks s).1 = Except.error Error.Busy ∧
    (erase_bank banks s).2.cr = { s.cr with lock := true } ∧
    (erase_bank banks s).2.trace
      = s.trace ++ [Ev.wKeyr FLASH_KEY1, Ev.wKeyr FLASH_KEY2,
                    Ev.wCr { s.cr with lock := true }] ∧
    (write_page p data s).1 = Except.error Error.Busy ∧
    (write_page p data s).2.cr = { s.cr with lock := true } ∧
    (write_page p data s).2.trace
      = s.trace ++ [Ev.wKeyr FLASH_KEY1, Ev.wKeyr FLASH_KEY2,
                    Ev.wCr { s.cr with lock := true }] := by
  simp [erase_page, erase_bank, write_page, unlock_accept s hk, lock, writeCr, hb]

theorem busy_at_entry_witness :
    initBusy.keyAccept = true ∧ initBusy.sr.bsy = true ∧
    (erase_page 3 initBusy).1 = Except.error Error.Busy ∧
    (write_page 3 [5] initBusy).2.cr.lock = true :=
  ⟨rfl, rfl, (busy_at_entry initBusy 3 [5] BanksToErase.Bank1 rfl rfl).1,
    by rw [(busy_at_entry initBusy 3 [5] BanksToErase.Bank1 rfl rfl).2.2.2.2.2.2.2.1]⟩

/-- C2 counterexample: the claim says `erase_page p` for `p ≥ 512`
returns `PageOutOfRange` with zero register writes, for every input.
With the busy flag set at entry it returns `Busy` instead; and on an
idle, error-free controller the rejection comes only after the two
unlock key-register writes, so the count of register writes is two, not
zero. -/
theorem erase_page_oor_zero_writes_counter :
    (erase_page 512 initBusy).1 = Except.error Error.Busy ∧
    (erase_page 512 initSt).1 = Except.error Error.PageOutOfRange ∧
    (erase_page 512 initSt).2.trace = [Ev.wKeyr FLASH_KEY1, Ev.wKeyr FLASH_KEY2] :=
  ⟨rfl, rfl, rfl⟩

/-- C2 amended: for `p ≥ 512`, when the key sequence is accepted, the
busy flag is clear and no error flag is pending, `erase_page p` returns
`PageOutOfRange`, and the only register writes performed are the two
unlock key writes — in particular no command-register write touches the
hardware. -/
theorem erase_page_oor_after_unlock (s : FlashState) (p : Nat)
    (hk : s.keyAccept = true) (hb : s.sr.bsy = false)
    (hpa : s.sr.pgaerr = false) (hpe : s.sr.progerr = false) (hwe : s.sr.wrperr = false)
    (hp : 512 ≤ p) :
    (erase_page p s).1 = Except.error Error.PageOutOfRange ∧
    (erase_page p s).2.trace = s.trace ++ [Ev.wKeyr FLASH_KEY1, Ev.wKeyr FLASH_KEY2] := by
  have h1 : ¬ p ≤ 255 := by omega
  have h2 : ¬ p ≤ 511 := by omega
  simp [erase_page, unlock_accept s hk, check_illegal, hb, hpa, hpe, hwe, h1, h2]

theorem erase_page_oor_after_unlock_witness :
    initSt.keyAccept = true ∧ initSt.sr.bsy = false ∧ (512 : Nat) ≤ 600 ∧
    (erase_page 600 initSt).1 = Except.error Error.PageOutOfRange ∧
    (erase_page 600 initSt).2.trace = [Ev.wKeyr FLASH_KEY1, Ev.wKeyr FLASH_KEY2] :=
  ⟨rfl, rfl, by omega,
    (erase_page_oor_after_unlock initSt 600 rfl rfl rfl rfl rfl (by omega)).1,
    (erase_page_oor_after_unlock initSt 600 rfl rfl rfl rfl rfl (by omega)).2⟩

/-- C9: under the shared prefix (accepted keys, not busy, no pending
error flag), `erase_page` maps a page below 256 to bank-select bit clear
with in-bank index `p`, and a page in `[256, 512)` to bank-select bit
set with in-bank index `p - 256`, as read off the final control
register, and the erase succeeds. -/
theorem erase_page_bank_split (s : FlashState) (p : Nat)
    (hk : s.keyAccept = true) (hb : s.sr.bsy = false)
    (hpa : s.sr.pgaerr = false) (hpe : s.sr.progerr = false) (hwe : s.sr.wrperr = false) :
    (p < 256 →
      (erase_page p s).1 = Except.ok () ∧
      (erase_page p s).2.cr.bker = false ∧
      (erase_page p s).2.cr.pnb = p) ∧
    (256 ≤ p → p < 512 →
      (erase_page p s).1 = Except.ok () ∧
      (erase_page p s).2.cr.bker = true ∧
      (erase_page p s).2.cr.pnb = p - 256) := by
  constructor
  · intro hp
    have h1 : p ≤ 255 := by omega
    have hm : p % 256 = p := Nat.mod_eq_of_lt hp
    simp [erase_page, unlock_accept s hk, check_illegal, hb, hpa, hpe, hwe, h1, hm,
      lock, writeCr, busyWait]
  · intro hp1 hp2
    have h1 : ¬ p ≤ 255 := by omega
    have h2 : p ≤ 511 := by omega
    have hm : (p - 256) % 256 = p - 256 := Nat.mod_eq_of_lt (by omega)
    simp [erase_page, unlock_accept s hk, check_illegal, hb, hpa, hpe, hwe, h1, h2, hm,
      lock, writeCr, busyWait]

theorem erase_page_bank_split_witness :
    initSt.keyAccept = true ∧ initSt.sr.bsy = false ∧
    (erase_page 300 initSt).2.cr.bker = true ∧
    (erase_page 300 initSt).2.cr.pnb = 44 ∧
    (erase_page 100 initSt).2.cr.bker = false ∧
    (erase_page 100 initSt).2.cr.pnb = 100 :=
  ⟨rfl, rfl,
    ((erase_page_bank_split initSt 300 rfl rfl rfl rfl rfl).2 (by omega) (by omega)).2.1,
    ((erase_page_bank_split initSt 300 rfl rfl rfl rfl rfl).2 (by omega) (by omega)).2.2,
    ((erase_page_bank_split initSt 100 rfl rfl rfl rfl rfl).1 (by omega)).2.1,
    ((erase_page_bank_split initSt 100 rfl rfl rfl rfl rfl).1 (by omega)).2.2⟩

/-- C10: under the shared prefix, `erase_bank Both` issues the two
mass-erase bank selections as two separate control-register write
events — one touching the Bank1 mass-erase bit, then a second, distinct
event touching the Bank2 mass-erase bit — followed by the start write
and the lock write; never one combined write. -/
theorem erase_bank_both_two_writes (s : FlashState)
    (hk : s.keyAccept = true) (hb : s.sr.bsy = false)
    (hpa : s.sr.pgaerr = false) (hpe : s.sr.progerr = false) (hwe : s.sr.wrperr = false) :
    (erase_bank BanksToErase.Both s).1 = Except.ok () ∧
    (erase_bank BanksToErase.Both s).2.trace
      = s.trace ++ [Ev.wKeyr FLASH_KEY1, Ev.wKeyr FLASH_KEY2,
          Ev.wCr { s.cr with lock := false, mer1 := false },
          Ev.wCr { s.cr with lock := false, mer1 := false, mer2 := false },
          Ev.wCr { s.cr with lock := false, mer1 := false, mer2 := false, start := true },
          Ev.wCr { s.cr with mer1 := false, mer2 := false, start := true, lock := true }] := by
  simp [erase_bank, unlock_accept s hk, check_illegal, hb, hpa, hpe, hwe,
    lock, writeCr, busyWait]

theorem erase_bank_both_two_writes_witness :
    initSt.keyAccept = true ∧ initSt.sr.bsy = false ∧
    (erase_bank BanksToErase.Both initSt).1 = Except.ok () ∧
    (erase_bank BanksToErase.Both initSt).2.trace
      = [Ev.wKeyr FLASH_KEY1, Ev.wKeyr FLASH_KEY2,
          Ev.wCr { initSt.cr with lock := false, mer1 := false },
          Ev.wCr { initSt.cr with lock := false, mer1 := false, mer2 := false },
          Ev.wCr { initSt.cr with lock := false, mer1 := false, mer2 := false, start := true },
          Ev.wCr { initSt.cr with mer1 := false, mer2 := false, start := true, lock := true }] :=
  ⟨rfl, rfl, (erase_bank_both_two_writes initSt rfl rfl rfl rfl rfl).1,
    (erase_bank_both_two_writes initSt rfl rfl rfl rfl rfl).2⟩

/-- C3 counterexample: the claim says an out-of-range page makes
`write_page` return `PageOutOfRange` before the unlock key sequence.
On an idle, error-free controller `write_page 512 []` returns `Ok`, and
its trace begins with the two unlock key writes. -/
theorem write_page_oor_counter :
    (write_page 512 [] initSt).1 = Except.ok () ∧
    (write_page 512 [] initSt).2.trace.take 2 = [Ev.wKeyr FLASH_KEY1, Ev.wKeyr FLASH_KEY2] :=
  ⟨rfl, rfl⟩

/-- C3 amended: `write_page` performs no page-range validation at all:
for every page index, every data slice and every controller state it
never returns `PageOutOfRange` (its only outcomes are `Ok`, `Failure`,
`Busy` and `Illegal`). -/
theorem write_page_never_oor (p : Nat) (data : List Nat) (s : FlashState) :
    (write_page p data s).1 ≠ Except.error Error.PageOutOfRange := by
  cases hk : s.keyAccept <;> cases hl : s.cr.lock <;> cases hb : s.sr.bsy <;>
    cases hf : (s.sr.pgaerr || s.sr.progerr || s.sr.wrperr) <;>
    simp [write_page, unlock, writeKeyr, check_illegal, hk, hl, hb, hf]

theorem write_page_never_oor_witness :
    (write_page 512 [77] initSt).1 ≠ Except.error Error.PageOutOfRange :=
  write_page_never_oor 512 [77] initSt

/-- The sequence of 32-bit programming writes the loop of `write_page`
issues for `data` starting at `addr`, oldest first: per 64-bit element,
the low word at the current address, the high word at address + 4, the
address advancing by 8. -/
def progWrites (addr : Nat) (data : List Nat) : List (Nat × Nat) :=
  match data with
  | [] => []
  | d :: rest =>
    (addr, d % 2 ^ 32) :: (addr + 4, d / 2 ^ 32 % 2 ^ 32) :: progWrites (addr + 8) rest

lemma progData_mem (data : List Nat) :
    ∀ (a : Nat) (s : FlashState),
      (progData a data s).mem = (progWrites a data).reverse ++ s.mem := by
  induction data with
  | nil => intro a s; simp [progData, progWrites]
  | cons d rest ih =>
    intro a s
    have hmem : ∀ sc : FlashState, (if sc.sr.eop then clearEop sc else sc).mem = sc.mem := by
      intro sc; by_cases h : sc.sr.eop <;> simp [clearEop, h]
    simp only [progData]
    rw [ih, hmem]
    simp [busyWait, writeMem, progWrites, List.append_assoc]

lemma progWrites_key_ge (data : List Nat) :
    ∀ (a : Nat) (x : Nat × Nat), x ∈ progWrites a data → a ≤ x.1 := by
  induction data with
  | nil => intro a x h; simp [progWrites] at h
  | cons d rest ih =>
    intro a x h
    simp only [progWrites, List.mem_cons] at h
    rcases h with rfl | rfl | h
    · simp
    · simp
    · exact le_trans (by omega) (ih (a + 8) x h)

lemma lookup_append_right (l1 l2 : List (Nat × Nat)) (a : Nat)
    (h : ∀ x ∈ l1, x.1 ≠ a) : List.lookup a (l1 ++ l2) = List.lookup a l2 := by
  induction l1 with
  | nil => simp
  | cons x t ih =>
    obtain ⟨k, v⟩ := x
    have hx : k ≠ a := h (k, v) (List.mem_cons_self (k, v) t)
    have hbeq : (a == k) = false := by rw [beq_eq_false_iff_ne]; exact fun hh => hx hh.symm
    simp only [List.cons_append, List.lookup, hbeq]
    exact ih fun y hy => h y (List.mem_cons_of_mem (k, v) hy)

/-- C7: under the shared prefix and on erased memory, `write_page`
succeeds, its memory-write log is exactly `progWrites` — per 64-bit
element the low 32 bits at the current address and the high 32 bits at
address + 4, advancing by 8 from `page_to_address page` — so the first
element's low word lands at `page_to_address page`, its high word at
`page_to_address page + 4`, and `read page 0` returns it intact. -/
theorem write_page_program_spec (p d : Nat) (rest : List Nat) (s : FlashState)
    (hk : s.keyAccept = true) (hb : s.sr.bsy = false)
    (hpa : s.sr.pgaerr = false) (hpe : s.sr.progerr = false) (hwe : s.sr.wrperr = false)
    (hm : s.mem = []) (hd : d < 2 ^ 64) :
    (write_page p (d :: rest) s).1 = Except.ok () ∧
    (write_page p (d :: rest) s).2.mem
      = (progWrites (page_to_address p) (d :: rest)).reverse ∧
    readWord (write_page p (d :: rest) s).2.mem (page_to_address p) = d % 2 ^ 32 ∧
    readWord (write_page p (d :: rest) s).2.mem (page_to_address p + 4)
      = d / 2 ^ 32 % 2 ^ 32 ∧
    read p 0 (write_page p (d :: rest) s).2 = d := by
  have hres : (write_page p (d :: rest) s).1 = Except.ok () := by
    simp [write_page, unlock_accept s hk, check_illegal, hb, hpa, hpe, hwe]
  have hmem2 : (write_page p (d :: rest) s).2.mem
      = (progWrites (page_to_address p) (d :: rest)).reverse := by
    simp [write_page, unlock_accept s hk, check_illegal, hb, hpa, hpe, hwe, lock, writeCr,
      progData_mem, hm]
  have hrev : (progWrites (page_to_address p) (d :: rest)).reverse
      = (progWrites (page_to_address p + 8) rest).reverse
        ++ [(page_to_address p + 4, d / 2 ^ 32 % 2 ^ 32), (page_to_address p, d % 2 ^ 32)] := by
    simp [progWrites, List.append_assoc]
  have hkey : ∀ x ∈ (progWrites (page_to_address p + 8) rest).reverse,
      page_to_address p + 8 ≤ x.1 :=
    fun x hx => progWrites_key_ge rest _ x (List.mem_reverse.mp hx)
  have hself : ∀ n : Nat, (n == n) = true := fun n => beq_self_eq_true n
  have hne : (page_to_address p == page_to_address p + 4) = false := by
    rw [beq_eq_false_iff_ne]; omega
  have hlo : readWord (write_page p (d :: rest) s).2.mem (page_to_address p) = d % 2 ^ 32 := by
    rw [hmem2, hrev]
    unfold readWord
    rw [lookup_append_right ((progWrites (page_to_address p + 8) rest).reverse)
      [(page_to_address p + 4, d / 2 ^ 32 % 2 ^ 32), (page_to_address p, d % 2 ^ 32)]
      (page_to_address p) (fun x hx => by have := hkey x hx; omega)]
    simp [List.lookup, hne, hself]
  have hhi : readWord (write_page p (d :: rest) s).2.mem (page_to_address p + 4)
      = d / 2 ^ 32 % 2 ^ 32 := by
    rw [hmem2, hrev]
    unfold readWord
    rw [lookup_append_right ((progWrites (page_to_address p + 8) rest).reverse)
      [(page_to_address p + 4, d / 2 ^ 32 % 2 ^ 32), (page_to_address p, d % 2 ^ 32)]
      (page_to_address p + 4) (fun x hx => by have := hkey x hx; omega)]
    simp [List.lookup, hself]
  have hcombine : d % 2 ^ 32 + 2 ^ 32 * (d / 2 ^ 32 % 2 ^ 32) = d := by
    have h1 : d % (2 ^ 32 * 2 ^ 32) = d % 2 ^ 32 + 2 ^ 32 * (d / 2 ^ 32 % 2 ^ 32) :=
      Nat.mod_mul
    have h2 : (2 : Nat) ^ 32 * 2 ^ 32 = 2 ^ 64 := by norm_num
    rw [← h1, h2]
    exact Nat.mod_eq_of_lt hd
  have hread : read p 0 (write_page p (d :: rest) s).2
      = readWord (write_page p (d :: rest) s).2.mem (page_to_address p)
        + 2 ^ 32 * readWord (write_page p (d :: rest) s).2.mem (page_to_address p + 4) := by
    simp [read]
  refine ⟨hres, hmem2, hlo, hhi, ?_⟩
  rw [hread, hlo, hhi, hcombine]

theorem write_page_program_spec_witness :
    initSt.keyAccept = true ∧ initSt.sr.bsy = false ∧ initSt.mem = [] ∧
    (0x1122334455667788 : Nat) < 2 ^ 64 ∧
    (write_page 0 [0x1122334455667788] initSt).1 = Except.ok () ∧
    readWord (write_page 0 [0x1122334455667788] initSt).2.mem 0x08000000 = 0x55667788 ∧
    readWord (write_page 0 [0x1122334455667788] initSt).2.mem 0x08000004 = 0x11223344 ∧
    read 0 0 (write_page 0 [0x1122334455667788] initSt).2 = 0x1122334455667788 := by
  have h := write_page_program_spec 0 0x1122334455667788 [] initSt rfl rfl rfl rfl rfl rfl
    (by norm_num)
  exact ⟨rfl, rfl, rfl, by norm_num, h.1, by decide, by decide, h.2.2.2.2⟩

end Stm32Flash
